import Mathlib

/-! # graph-tool: file/cache synchronization engine, verified model

A shallow embedding of the persistence core of the graph-tool repository:
the entity store (atomic JSON file writes, idempotent file deletes, bulk
load with per-file error collection), the write tracker and the
file-watcher event handlers, the cascading node delete, the data-source
registry and the hot-reload orchestration.

Modelling conventions:
- a JavaScript object parsed from an entity file is a record of optional
  fields (none = the field is absent / undefined);
- a directory is an association list from file path to file content;
- machine time is a natural number of milliseconds;
- fallible filesystem or database primitives take an explicit
  fault-injection parameter naming the primitive that is made to fail;
- JSON.stringify followed by JSON.parse is the identity on plain objects,
  so a written file stores the object itself.
-/

namespace GraphTool

/-! ## String helpers modelling the JavaScript string operations used -/

/-- JS String.endsWith, as a suffix test on the character lists. -/
def strEndsWith (s post : String) : Bool := post.data.isSuffixOf s.data

/-- Split a character list at every occurrence of the character c,
modelling JS String.split with a one-character separator. -/
def splitCh (c : Char) : List Char → List (List Char)
  | [] => [[]]
  | x :: xs =>
    match splitCh c xs with
    | [] => [[]]
    | y :: ys => if x = c then [] :: y :: ys else (x :: y) :: ys

def strUndefined : String := "undefined"
def jsonExt : String := ".json"
def tmpExt : String := ".tmp"
def backupExt : String := ".backup"
def tblNodes : String := "nodes"
def tblLinks : String := "links"
def slashStr : String := "/"
def colonCh : Char := ':'
def slashCh : Char := '/'

def pathJoin (a b : String) : String := a ++ slashStr ++ b

/-- JS path.basename: the part of the path after the last slash. -/
def basename (p : String) : String :=
  match (splitCh slashCh p.data).getLast? with
  | some l => String.mk l
  | none => p

/-! ## The JSON object model -/

/-- A JSON object as produced by JSON.parse on an entity file, restricted
to the fields the persistence core reads and writes.  A field holds none
when it is absent from the object (JS undefined / null). -/
structure JObj where
  id : Option String := none
  label : Option String := none
  source_id : Option String := none
  target_id : Option String := none
  url : Option String := none
  x : Option Int := none
  y : Option Int := none
  created_at : Option String := none
  updated_at : Option String := none
  deriving DecidableEq

/-- JS truthiness of a string field: undefined and the empty string are falsy. -/
def truthy : Option String → Bool
  | none => false
  | some s => if s = "" then false else true

/-- JS expression (v || null) on a string field. -/
def orNull (v : Option String) : Option String := if truthy v then v else none

/-- JS expression (a || b) on string fields. -/
def strOr (a b : Option String) : Option String := if truthy a then a else b

/-- JS expression (v || null) on a numeric field: 0 is falsy and becomes null. -/
def numOrNull (v : Option Int) : Option Int :=
  match v with
  | none => none
  | some n => if n = 0 then none else some n

/-- Content of one file: either text that JSON.parse rejects, or a parsed object. -/
inductive FileData
  | corrupt
  | jobj (o : JObj)
  deriving DecidableEq

/-- A directory listing: file path to content, modelling the filesystem state of
one watched directory (temp and backup files live in the same listing). -/
abbrev Dir := List (String × FileData)

def lookupD : Dir → String → Option FileData
  | [], _ => none
  | (k, v) :: r, n => if k = n then some v else lookupD r n

def setD : Dir → String → FileData → Dir
  | [], n, c => [(n, c)]
  | (k, v) :: r, n, c => if k = n then (k, c) :: r else (k, v) :: setD r n c

def eraseD : Dir → String → Dir
  | [], _ => []
  | (k, v) :: r, n => if k = n then eraseD r n else (k, v) :: eraseD r n

/-! ## Entity ids and file names (file-service.js utility section) -/

/-- Convert a stored id to string form, modelling idToString: a string id is
returned unchanged; stringifying an absent id yields the text undefined. -/
def idToString : Option String → String
  | some s => s
  | none => strUndefined

/-- Extract the id suffix after the first colon, modelling getIdSuffix
(JS split then index 1; with no colon the index is undefined and later
stringifies to the text undefined inside the template literal). -/
def getIdSuffix (id : Option String) : String :=
  match splitCh colonCh (idToString id).data with
  | _ :: s :: _ => String.mk s
  | _ => strUndefined

def nodeFileStart : String := "node_"
def linkFileStart : String := "link_"

def getNodeFilename (id : Option String) : String :=
  nodeFileStart ++ getIdSuffix id ++ jsonExt

def getLinkFilename (id : Option String) : String :=
  linkFileStart ++ getIdSuffix id ++ jsonExt

def NODES_DIR : String := "files/nodes"
def LINKS_DIR : String := "files/links"

def getNodeFilePath (id : Option String) : String :=
  pathJoin NODES_DIR (getNodeFilename id)

def getLinkFilePath (id : Option String) : String :=
  pathJoin LINKS_DIR (getLinkFilename id)

/-- First component of a record id, modelling id.split at the colon, index 0. -/
def recordTable (id : String) : String :=
  match splitCh colonCh id.data with
  | t :: _ => String.mk t
  | [] => strUndefined

/-! ## Atomic write (file-service.js atomicWrite) -/

/-- Fault-injection sites inside atomicWrite: each constructor names one
filesystem primitive of the implementation that is made to fail. -/
inductive AWStep
  | writeTmp
  | backupRename
  | finalRename
  | unlinkBackup
  deriving DecidableEq

/-- The catch-block rollback of atomicWrite: rename the backup over the target
when a backup file exists, otherwise leave the directory unchanged (the rename
error of a missing backup is swallowed). -/
def awRollback (d : Dir) (filepath backupPath : String) : Dir :=
  match lookupD d backupPath with
  | none => d
  | some c => setD (eraseD d backupPath) filepath c

/-- atomicWrite: write the content to filepath plus tmp, rename any existing
target to filepath plus backup (a rename failure here is swallowed), rename the
temp file into place, then delete the backup (an unlink failure here is
swallowed).  Any propagating failure runs the rollback and is re-thrown; the
first component of the result is the re-thrown error. -/
def atomicWrite (d : Dir) (fault : Option AWStep) (filepath : String) (content : FileData) :
    Option AWStep × Dir :=
  let tempPath := filepath ++ tmpExt
  let backupPath := filepath ++ backupExt
  if fault = some AWStep.writeTmp then
    (some AWStep.writeTmp, awRollback d filepath backupPath)
  else
    let d1 := setD d tempPath content
    let d2 :=
      if fault = some AWStep.backupRename then d1
      else
        match lookupD d1 filepath with
        | none => d1
        | some old => setD (eraseD d1 filepath) backupPath old
    if fault = some AWStep.finalRename then
      (some AWStep.finalRename, awRollback d2 filepath backupPath)
    else
      let d3 :=
        match lookupD d2 tempPath with
        | none => d2
        | some c => setD (eraseD d2 tempPath) filepath c
      let d4 := if fault = some AWStep.unlinkBackup then d3 else eraseD d3 backupPath
      (none, d4)

/-! ## Write tracker, entity store state and watcher handlers -/

/-- The write tracker: file path to the millisecond timestamp recorded just
before the service issued its own write (recentWrites in file-service.js). -/
abbrev Marks := List (String × Nat)

def lookupMark : Marks → String → Option Nat
  | [], _ => none
  | (k, v) :: r, n => if k = n then some v else lookupMark r n

def setMark : Marks → String → Nat → Marks
  | [], n, t => [(n, t)]
  | (k, v) :: r, n, t => if k = n then (k, t) :: r else (k, v) :: setMark r n t

/-- isOurWrite: a mark exists for the path and is younger than one second. -/
def isOurWrite (marks : Marks) (now : Nat) (filepath : String) : Bool :=
  match lookupMark marks filepath with
  | none => false
  | some t => if now - t < 1000 then true else false

/-- Module state of the file service and its database cache: the two watched
directory listings, the write tracker, the cache tables and the notification
stream already emitted to clients. -/
structure SyncState where
  nodesDir : Dir
  linksDir : Dir
  marks : Marks
  cacheNodes : List JObj
  cacheLinks : List JObj
  notifications : List (String × String × String)
  deriving DecidableEq

/-- saveNode: record the write in the tracker before issuing it, normalize the
id to string form, serialize and write atomically.  The expiry of the mark two
seconds later is a separate timer event and is not part of this step. -/
def saveNode (st : SyncState) (now : Nat) (fault : Option AWStep) (node : JObj) :
    Option AWStep × SyncState :=
  let filepath := getNodeFilePath node.id
  let marks := setMark st.marks filepath now
  let normalizedNode := {node with id := some (idToString node.id)}
  let (err, dir) := atomicWrite st.nodesDir fault filepath (FileData.jobj normalizedNode)
  (err, {st with marks := marks, nodesDir := dir})

/-- saveLink: as saveNode, normalizing id, source_id and target_id. -/
def saveLink (st : SyncState) (now : Nat) (fault : Option AWStep) (link : JObj) :
    Option AWStep × SyncState :=
  let filepath := getLinkFilePath link.id
  let marks := setMark st.marks filepath now
  let normalizedLink := {link with
    id := some (idToString link.id),
    source_id := some (idToString link.source_id),
    target_id := some (idToString link.target_id)}
  let (err, dir) := atomicWrite st.linksDir fault filepath (FileData.jobj normalizedLink)
  (err, {st with marks := marks, linksDir := dir})

/-- I/O errors of the unlink primitive: the file was absent, or another error. -/
inductive IOErr
  | enoent
  | eperm
  deriving DecidableEq

/-- The unlink primitive: an injected fault raises a non-ENOENT error, a
missing file raises ENOENT, otherwise the entry is removed. -/
def primUnlink (d : Dir) (fault : Bool) (filepath : String) : Option IOErr × Dir :=
  if fault then (some IOErr.eperm, d)
  else
    match lookupD d filepath with
    | none => (some IOErr.enoent, d)
    | some _ => (none, eraseD d filepath)

/-- deleteNodeFile: mark the path as our write, unlink the file, swallow the
file-not-found error and propagate any other error. -/
def deleteNodeFile (st : SyncState) (now : Nat) (fault : Bool) (id : Option String) :
    Option IOErr × SyncState :=
  let filepath := getNodeFilePath id
  let marks := setMark st.marks filepath now
  let (err, dir) := primUnlink st.nodesDir fault filepath
  let st1 := {st with marks := marks, nodesDir := dir}
  match err with
  | none => (none, st1)
  | some IOErr.enoent => (none, st1)
  | some e => (some e, st1)

/-- deleteLinkFile: as deleteNodeFile on the links directory. -/
def deleteLinkFile (st : SyncState) (now : Nat) (fault : Bool) (id : Option String) :
    Option IOErr × SyncState :=
  let filepath := getLinkFilePath id
  let marks := setMark st.marks filepath now
  let (err, dir) := primUnlink st.linksDir fault filepath
  let st1 := {st with marks := marks, linksDir := dir}
  match err with
  | none => (none, st1)
  | some IOErr.enoent => (none, st1)
  | some e => (some e, st1)

/-- One collected bulk-load error: the offending file path, the thrown message
and the action taken. -/
structure LoadErr where
  file : String
  message : String
  action : String
  deriving DecidableEq

def msgMissingNode : String := "Missing required fields: id or label"
def msgMissingLink : String := "Missing required fields: id, source_id, or target_id"
def msgParse : String := "Unexpected token in JSON"
def actSkipped : String := "skipped"

/-- Validation applied by loadAllFiles to a parsed node object. -/
def validNode (o : JObj) : Bool := truthy o.id && truthy o.label

/-- Validation applied by loadAllFiles to a parsed link object. -/
def validLink (o : JObj) : Bool := truthy o.id && truthy o.source_id && truthy o.target_id

/-- One directory pass of loadAllFiles: skip names not ending in .json (which
also skips temp and backup artifacts), skip temp and backup names, then parse
and validate each remaining file; a parse or validation failure is recorded as
a per-file error and the pass continues with the remaining files. -/
def loadDir (valid : JObj → Bool) (missingMsg : String) : Dir → List JObj × List LoadErr
  | [] => ([], [])
  | (filepath, data) :: rest =>
    let r := loadDir valid missingMsg rest
    if strEndsWith filepath jsonExt = false then r
    else if strEndsWith filepath tmpExt || strEndsWith filepath backupExt then r
    else
      match data with
      | FileData.corrupt =>
        (r.1, {file := filepath, message := msgParse, action := actSkipped} :: r.2)
      | FileData.jobj o =>
        if valid o then (o :: r.1, r.2)
        else (r.1, {file := filepath, message := missingMsg, action := actSkipped} :: r.2)

/-- Result of a bulk load: loaded nodes, loaded links and per-file errors. -/
structure LoadResult where
  nodes : List JObj
  links : List JObj
  errors : List LoadErr
  deriving DecidableEq

/-- loadAllFiles over the two directory listings. -/
def loadAllFiles (nodesDir linksDir : Dir) : LoadResult :=
  let rn := loadDir validNode msgMissingNode nodesDir
  let rl := loadDir validLink msgMissingLink linksDir
  {nodes := rn.1, links := rl.1, errors := rn.2 ++ rl.2}

/-! ## Cache upserts (db-service.js file-sync operations) -/

/-- Replace the row with the same id, or append, modelling an UPSERT
on a record id. -/
def upsertById (rows : List JObj) (row : JObj) : List JObj :=
  if rows.any (fun r => r.id = row.id) then
    rows.map (fun r => if r.id = row.id then row else r)
  else rows ++ [row]

/-- The node row written by the upsertFromFile query: the listed fields with
JS or-null defaulting, updated_at defaulting to the current time. -/
def nodeRowOfFile (nowStr : String) (data : JObj) : JObj :=
  {id := data.id, label := data.label, url := orNull data.url,
   x := numOrNull data.x, y := numOrNull data.y,
   created_at := data.created_at,
   updated_at := strOr data.updated_at (some nowStr)}

/-- The link row written by the upsertFromFile query. -/
def linkRowOfFile (nowStr : String) (data : JObj) : JObj :=
  {id := data.id, source_id := data.source_id, target_id := data.target_id,
   label := orNull data.label,
   created_at := data.created_at,
   updated_at := strOr data.updated_at (some nowStr)}

/-- upsertFromFile: dispatch on the table component of the id; an absent id
makes the split throw, which the caller catches (none result). -/
def upsertFromFile (st : SyncState) (nowStr : String) (data : JObj) : Option SyncState :=
  match data.id with
  | none => none
  | some i =>
    if recordTable i = tblNodes then
      some {st with cacheNodes := upsertById st.cacheNodes (nodeRowOfFile nowStr data)}
    else if recordTable i = tblLinks then
      some {st with cacheLinks := upsertById st.cacheLinks (linkRowOfFile nowStr data)}
    else some st

def actAdded : String := "added"
def actUpdated : String := "updated"
def evData : String := "data-change"

/-- handleFileAdded: ignore non-JSON names, ignore our own writes, otherwise
read and parse the file, upsert it into the cache and emit a notification;
read, parse or upsert errors are logged and dropped. -/
def handleFileAdded (st : SyncState) (now : Nat) (nowStr : String)
    (typ : String) (filepath : String) : SyncState :=
  let filename := basename filepath
  if strEndsWith filename jsonExt = false then st
  else if isOurWrite st.marks now filepath then st
  else
    match lookupD (if typ = "node" then st.nodesDir else st.linksDir) filepath with
    | none => st
    | some FileData.corrupt => st
    | some (FileData.jobj data) =>
      match upsertFromFile st nowStr data with
      | none => st
      | some st1 =>
        {st1 with notifications :=
          st1.notifications ++ [(typ, actAdded, idToString data.id)]}

/-- handleFileChanged: identical structure, emitting an updated notification. -/
def handleFileChanged (st : SyncState) (now : Nat) (nowStr : String)
    (typ : String) (filepath : String) : SyncState :=
  let filename := basename filepath
  if strEndsWith filename jsonExt = false then st
  else if isOurWrite st.marks now filepath then st
  else
    match lookupD (if typ = "node" then st.nodesDir else st.linksDir) filepath with
    | none => st
    | some FileData.corrupt => st
    | some (FileData.jobj data) =>
      match upsertFromFile st nowStr data with
      | none => st
      | some st1 =>
        {st1 with notifications :=
          st1.notifications ++ [(typ, actUpdated, idToString data.id)]}

/-! ## Cascading node delete (db-service.js deleteNode) -/

/-- The WHERE clause of the cascade query: the link references the node. -/
def isConnected (id : String) (l : JObj) : Bool :=
  l.source_id = some id || l.target_id = some id

/-- DELETE of a single record id: removed from the table its id names. -/
def deleteRecord (st : SyncState) (id : String) : SyncState :=
  if recordTable id = tblNodes then
    {st with cacheNodes := st.cacheNodes.filter (fun n => !(n.id = some id))}
  else if recordTable id = tblLinks then
    {st with cacheLinks := st.cacheLinks.filter (fun l => !(l.id = some id))}
  else st

/-- Result object of deleteNode. -/
structure DelResult where
  success : Bool
  id : String
  deletedLinks : Nat
  deriving DecidableEq

/-- deleteNode: fetch the connected links before deleting, delete them and the
node from the cache, then delete the node file and each connected link file
(the file deletes are fire-and-forget; their errors are only logged). -/
def deleteNode (st : SyncState) (now : Nat) (id : String) : DelResult × SyncState :=
  let connectedLinks := st.cacheLinks.filter (isConnected id)
  let st1 := {st with cacheLinks := st.cacheLinks.filter (fun l => !(isConnected id l))}
  let st2 := deleteRecord st1 id
  let st3 := (deleteNodeFile st2 now false (some id)).2
  let st4 := connectedLinks.foldl (fun acc l => (deleteLinkFile acc now false l.id).2) st3
  ({success := true, id := id, deletedLinks := connectedLinks.length}, st4)

/-! ## Data-source registry (data-source-service.js) -/

structure DataSource where
  name : String
  path : String
  description : String
  deriving DecidableEq

structure SourceConfig where
  current : String
  sources : List (String × DataSource)
  deriving DecidableEq

/-- Outcome of reading the data-sources configuration file: the read itself
failed (missing or unreadable file), the JSON was invalid, or a parsed config. -/
inductive ConfigRead
  | readError
  | corruptJson
  | ok (c : SourceConfig)
  deriving DecidableEq

def srcDefault : String := "default"
def defaultName : String := "Default (Project Files)"
def defaultPath : String := "./files"
def defaultDescr : String := "Default data storage in project folder"

/-- The built-in fallback configuration returned when the config file cannot
be read or parsed. -/
def defaultConfig : SourceConfig :=
  {current := srcDefault,
   sources := [(srcDefault,
     {name := defaultName, path := defaultPath, description := defaultDescr})]}

def lookupSrc : List (String × DataSource) → String → Option DataSource
  | [], _ => none
  | (k, v) :: r, n => if k = n then some v else lookupSrc r n

def setSrc : List (String × DataSource) → String → DataSource → List (String × DataSource)
  | [], n, s => [(n, s)]
  | (k, v) :: r, n, s => if k = n then (k, s) :: r else (k, v) :: setSrc r n s

def removeSrc : List (String × DataSource) → String → List (String × DataSource)
  | [], _ => []
  | (k, v) :: r, n => if k = n then removeSrc r n else (k, v) :: removeSrc r n

/-- getConfig: any failure reading or parsing the file yields the default. -/
def getConfig : ConfigRead → SourceConfig
  | ConfigRead.ok c => c
  | _ => defaultConfig

def getAllSources (r : ConfigRead) : List (String × DataSource) :=
  (getConfig r).sources

def msgCurNotFound1 : String := "Current data source \""
def msgCurNotFound2 : String := "\" not found in config"
def msgNotFound1 : String := "Data source \""
def msgNotFound2 : String := "\" not found"
def msgCannotRemoveDefault : String := "Cannot remove default data source"
def msgCannotRemoveActive : String :=
  "Cannot remove currently active data source. Switch to another source first."
def msgInvalidPath : String := "Invalid data source path: "
def msgCannotSwitch : String := "Cannot switch to data source: "
def msgNotDir : String := "Path exists but is not a directory"
def msgMkdir : String := "Failed to create or access directory"

def getCurrentSource (r : ConfigRead) : Except String (String × DataSource) :=
  let config := getConfig r
  match lookupSrc config.sources config.current with
  | none => Except.error (msgCurNotFound1 ++ config.current ++ msgCurNotFound2)
  | some source => Except.ok (config.current, source)

/-- Filesystem environment seen by validateSourcePath: source roots where
creating the nodes/links subdirectories throws (for example because the root
is an existing plain file), and roots where stat reports a non-directory. -/
structure FsEnv where
  mkdirFail : List String
  notDirAt : List String
  deriving DecidableEq

structure ValidPaths where
  absolutePath : String
  nodesDir : String
  linksDir : String
  deriving DecidableEq

/-- validateSourcePath: resolve the path (modelled as the identity), create
the nodes and links subdirectories (idempotent; a creation failure is the
catch path), then verify the root is a directory. -/
def validateSourcePath (env : FsEnv) (p : String) : Except String ValidPaths :=
  if p ∈ env.mkdirFail then Except.error msgMkdir
  else if p ∈ env.notDirAt then Except.error msgNotDir
  else Except.ok
    {absolutePath := p, nodesDir := pathJoin p tblNodes, linksDir := pathJoin p tblLinks}

def dashStr : String := "-"

/-- The while loop of addSource disambiguating a colliding id; the loop
terminates because the candidates are pairwise distinct and the source table
is finite, modelled with sufficient fuel. -/
def genGo (sources : List (String × DataSource)) (id : String) : Nat → Nat → String
  | c, 0 => id ++ dashStr ++ toString c
  | c, fuel+1 =>
    let cand := id ++ dashStr ++ toString c
    if lookupSrc sources cand = none then cand else genGo sources id (c+1) fuel

def genUniqueId (sources : List (String × DataSource)) (id : String) : String :=
  if lookupSrc sources id = none then id else genGo sources id 1 (sources.length + 1)

def descrOrEmpty : Option String → String
  | some s => s
  | none => ""

/-- addSource: disambiguate the id, validate the path, then return the added
entry together with the configuration that saveConfig persists. -/
def addSource (r : ConfigRead) (env : FsEnv) (id : String) (name path : String)
    (descr : Option String) : Except String ((String × DataSource) × SourceConfig) :=
  let config := getConfig r
  let finalId := genUniqueId config.sources id
  match validateSourcePath env path with
  | Except.error e => Except.error (msgInvalidPath ++ e)
  | Except.ok _ =>
    let entry : DataSource := {name := name, path := path, description := descrOrEmpty descr}
    Except.ok ((finalId, entry), {config with sources := setSrc config.sources finalId entry})

/-- removeSource: guard the default and the active source, then return the
configuration that saveConfig persists. -/
def removeSource (r : ConfigRead) (id : String) : Except String SourceConfig :=
  let config := getConfig r
  if id = srcDefault then Except.error msgCannotRemoveDefault
  else if config.current = id then Except.error msgCannotRemoveActive
  else
    match lookupSrc config.sources id with
    | none => Except.error (msgNotFound1 ++ id ++ msgNotFound2)
    | some _ => Except.ok {config with sources := removeSrc config.sources id}

/-- switchSource up to and including what saveConfig persists: existence
check, path validation, then the updated configuration (current set to the
new id) and the switch result. -/
def switchSourceCfg (r : ConfigRead) (env : FsEnv) (newSourceId : String) :
    Except String (SourceConfig × DataSource × ValidPaths) :=
  let config := getConfig r
  match lookupSrc config.sources newSourceId with
  | none => Except.error (msgNotFound1 ++ newSourceId ++ msgNotFound2)
  | some newSource =>
    match validateSourcePath env newSource.path with
    | Except.error e => Except.error (msgCannotSwitch ++ e)
    | Except.ok vp => Except.ok ({config with current := newSourceId}, newSource, vp)

/-! ## Hot reload orchestration (server.js performHotReload) -/

/-- Per-source directory contents on disk, keyed by source root, as the node
and link lists loadAllFiles returns for that root (a missing root reads as
empty, exactly as loadAllFiles swallows ENOENT on the directories). -/
abbrev DiskMap := List (String × (List JObj × List JObj))

def lookupDisk : DiskMap → String → List JObj × List JObj
  | [], _ => ([], [])
  | (k, v) :: r, n => if k = n then v else lookupDisk r n

/-- The node row written by one populateFromFiles upsert. -/
def nodeRowOfLoad (node : JObj) : JObj :=
  {id := node.id, label := node.label, url := orNull node.url,
   x := numOrNull node.x, y := numOrNull node.y,
   created_at := node.created_at,
   updated_at := strOr node.updated_at node.created_at}

/-- The link row written by one populateFromFiles upsert. -/
def linkRowOfLoad (link : JObj) : JObj :=
  {id := link.id, source_id := link.source_id, target_id := link.target_id,
   label := orNull link.label, created_at := link.created_at,
   updated_at := strOr link.updated_at link.created_at}

/-- populateFromFiles upsert loop over one table. -/
def populateRows (rows : List JObj) (f : JObj → JObj) (table : List JObj) : List JObj :=
  rows.foldl (fun acc r => upsertById acc (f r)) table

/-- World state of the orchestrator: the persisted config file, the
filesystem environment, the per-source disk contents, the file-service
current source root, the watched directory pair (none when un-watching), the
cache tables and the broadcast stream. -/
structure HRWorld where
  configRead : ConfigRead
  env : FsEnv
  disk : DiskMap
  filesDir : String
  watchDirs : Option (String × String)
  cacheNodes : List JObj
  cacheLinks : List JObj
  broadcasts : List (String × String × String)
  deriving DecidableEq

def errClear : String := "clear failed"
def errPopulate : String := "populate failed"
def errMkdirNew : String := "mkdir failed"
def sysStr : String := "system"
def reloadStr : String := "reload"

def stopWatchersW (w : HRWorld) : HRWorld := {w with watchDirs := none}

def startWatchersW (w : HRWorld) : HRWorld :=
  {w with watchDirs := some (pathJoin w.filesDir tblNodes, pathJoin w.filesDir tblLinks)}

def updatePathsW (w : HRWorld) (p : String) : HRWorld := {w with filesDir := p}

/-- clearAllData: links deleted before nodes; an injected fault leaves the
cache untouched and throws. -/
def clearAllW (w : HRWorld) (fault : Bool) : Option String × HRWorld :=
  if fault then (some errClear, w)
  else (none, {w with cacheLinks := [], cacheNodes := []})

/-- loadAllFiles of the current source root (never throws). -/
def loadAllW (w : HRWorld) : List JObj × List JObj := lookupDisk w.disk w.filesDir

def populateW (w : HRWorld) (ns ls : List JObj) (fault : Bool) : Option String × HRWorld :=
  if fault then (some errPopulate, w)
  else (none, {w with
    cacheNodes := populateRows ns nodeRowOfLoad w.cacheNodes,
    cacheLinks := populateRows ls linkRowOfLoad w.cacheLinks})

/-- reloadWatchers: stop the current watchers, ensure the directories exist
(the injected fault), then start watchers on the current source root. -/
def reloadWatchersW (w : HRWorld) (fault : Bool) : Option String × HRWorld :=
  let w1 := stopWatchersW w
  if fault then (some errMkdirNew, w1)
  else (none, startWatchersW w1)

/-- Fault-injection flags for the hot-reload steps that can throw, main path
and recovery path separately. -/
structure HRFaults where
  clear : Bool
  populate : Bool
  reloadW : Bool
  recReloadW : Bool
  recPopulate : Bool
  deriving DecidableEq

/-- switchSource at world level: a success persists the updated config. -/
def switchSourceW (w : HRWorld) (newSourceId : String) :
    Except String (HRWorld × DataSource × ValidPaths) :=
  match switchSourceCfg w.configRead w.env newSourceId with
  | Except.error e => Except.error e
  | Except.ok (config1, src, vp) =>
    Except.ok ({w with configRead := ConfigRead.ok config1}, src, vp)

/-- The hot-reload recovery path: read the source the persisted config names
as current at the moment of the failure, point the file service at it,
restart watchers, then reload and repopulate; a failure inside recovery is
only logged, leaving the world at the point of that failure. -/
def recoverHR (w : HRWorld) (f : HRFaults) : HRWorld :=
  match getCurrentSource w.configRead with
  | Except.error _ => w
  | Except.ok (_, cs) =>
    let w1 := updatePathsW w cs.path
    match reloadWatchersW w1 f.recReloadW with
    | (some _, w2) => w2
    | (none, w2) =>
      let loaded := loadAllW w2
      (populateW w2 loaded.1 loaded.2 f.recPopulate).2

/-- performHotReload: switch the config (validation then save), stop
watchers, clear the cache, repoint the file service, load the new source,
populate the cache, restart watchers, broadcast; any failure runs the
recovery path and re-throws the original error. -/
def performHotReload (w : HRWorld) (f : HRFaults) (newSourceId : String) :
    Except String DataSource × HRWorld :=
  match switchSourceW w newSourceId with
  | Except.error e => (Except.error e, recoverHR w f)
  | Except.ok (w1, newSource, _) =>
    let w2 := stopWatchersW w1
    match clearAllW w2 f.clear with
    | (some e, w3) => (Except.error e, recoverHR w3 f)
    | (none, w3) =>
      let w4 := updatePathsW w3 newSource.path
      let loaded := loadAllW w4
      match populateW w4 loaded.1 loaded.2 f.populate with
      | (some e, w5) => (Except.error e, recoverHR w5 f)
      | (none, w5) =>
        match reloadWatchersW w5 f.reloadW with
        | (some e, w6) => (Except.error e, recoverHR w6 f)
        | (none, w6) =>
          (Except.ok newSource,
           {w6 with broadcasts := w6.broadcasts ++ [(sysStr, reloadStr, newSourceId)]})

/-! ## OS watch handles (file-service.js startWatchers / stopWatchers)

The chokidar close() call returns a promise and releases the underlying OS
watch handle only when that promise settles; stopWatchers invokes close()
without awaiting it and returns immediately, so the release is a separate,
later event-loop step, modelled by osCompleteClose. -/

/-- State of one OS watch handle: active, close initiated but still pending,
or fully released. -/
inductive HandleState
  | active
  | closing
  | released
  deriving DecidableEq

/-- The watcher module state: the two module-level watcher references and
the OS handle table, with a counter allocating handle ids. -/
structure WatchSys where
  nodesWatcher : Option Nat
  linksWatcher : Option Nat
  handles : List (Nat × HandleState)
  nextH : Nat
  deriving DecidableEq

def lookupHandle : List (Nat × HandleState) → Nat → Option HandleState
  | [], _ => none
  | (k, v) :: r, n => if k = n then some v else lookupHandle r n

/-- close() on a watcher: the handle moves from active to closing (release
initiated, promise pending); the call returns at once. -/
def closeHandle (hs : List (Nat × HandleState)) (h : Nat) : List (Nat × HandleState) :=
  hs.map (fun p => if p.1 = h ∧ p.2 = HandleState.active then (p.1, HandleState.closing) else p)

/-- Asynchronous completion of a pending close, delivered later by the event
loop: the handle becomes released. -/
def osCompleteClose (hs : List (Nat × HandleState)) (h : Nat) : List (Nat × HandleState) :=
  hs.map (fun p => if p.1 = h ∧ p.2 = HandleState.closing then (p.1, HandleState.released) else p)

/-- startWatchers: allocate the two chokidar watchers. -/
def startWatchersS (s : WatchSys) : WatchSys :=
  {nodesWatcher := some s.nextH, linksWatcher := some (s.nextH + 1),
   handles := s.handles ++ [(s.nextH, HandleState.active), (s.nextH + 1, HandleState.active)],
   nextH := s.nextH + 2}

/-- stopWatchers: for each non-null watcher reference, call its asynchronous
close() without awaiting the returned promise and null the reference; the
function returns immediately, before the handles are released. -/
def stopWatchersS (s : WatchSys) : WatchSys :=
  let s1 :=
    match s.nodesWatcher with
    | some h => {s with handles := closeHandle s.handles h, nodesWatcher := none}
    | none => s
  match s1.linksWatcher with
  | some h => {s1 with handles := closeHandle s1.handles h, linksWatcher := none}
  | none => s1

/-! ## Per-file classifiers used to characterize loadAllFiles -/

/-- A directory entry that loadAllFiles will consider: the name ends in .json
and is not a temp or backup artifact. -/
def jsonCandidate (name : String) : Bool :=
  strEndsWith name jsonExt && !(strEndsWith name tmpExt || strEndsWith name backupExt)

/-- The object a single directory entry contributes to the loaded list. -/
def keepObj (valid : JObj → Bool) (e : String × FileData) : Option JObj :=
  if jsonCandidate e.1 then
    match e.2 with
    | FileData.corrupt => none
    | FileData.jobj o => if valid o then some o else none
  else none

/-- The error a single directory entry contributes to the error list. -/
def errObj (valid : JObj → Bool) (missingMsg : String) (e : String × FileData) :
    Option LoadErr :=
  if jsonCandidate e.1 then
    match e.2 with
    | FileData.corrupt => some {file := e.1, message := msgParse, action := actSkipped}
    | FileData.jobj o =>
      if valid o then none
      else some {file := e.1, message := missingMsg, action := actSkipped}
  else none

/-! ## Concrete instances used by the examples below -/

def idN1 : String := "nodes:n1"
def idN2 : String := "nodes:n2"
def idNBad : String := "nodes:bad"
def idL1 : String := "links:l1"
def idL2 : String := "links:l2"
def idL3 : String := "links:l3"
def labelA : String := "A"
def labelB : String := "B"
def ts0 : String := "2024-01-01T00:00:00Z"
def tsNow : String := "2024-01-02T00:00:00Z"

def nodeW1 : JObj := {id := some idN1, label := some labelA, created_at := some ts0}
def nodeW2 : JObj := {id := some idN2, label := some labelB, created_at := some ts0}
def linkW1 : JObj :=
  {id := some idL1, source_id := some idN1, target_id := some idN2, created_at := some ts0}
def linkW2 : JObj :=
  {id := some idL2, source_id := some idN2, target_id := some idN1, created_at := some ts0}
def linkW3 : JObj :=
  {id := some idL3, source_id := some idN2, target_id := some idN2, created_at := some ts0}

def stEmpty : SyncState :=
  {nodesDir := [], linksDir := [], marks := [],
   cacheNodes := [], cacheLinks := [], notifications := []}

/-- State for the cascade example: node n1 with links l1 (source n1),
l2 (target n1) and the unrelated l3, all present in cache and on disk. -/
def stC1 : SyncState :=
  {nodesDir := [(getNodeFilePath (some idN1), FileData.jobj nodeW1),
                (getNodeFilePath (some idN2), FileData.jobj nodeW2)],
   linksDir := [(getLinkFilePath (some idL1), FileData.jobj linkW1),
                (getLinkFilePath (some idL2), FileData.jobj linkW2),
                (getLinkFilePath (some idL3), FileData.jobj linkW3)],
   marks := [], cacheNodes := [nodeW1, nodeW2],
   cacheLinks := [linkW1, linkW2, linkW3], notifications := []}

def fnG1 : String := "files/nodes/node_g1.json"
def fnBad : String := "files/nodes/node_bad.json"
def fnG2 : String := "files/nodes/node_g2.json"
def nGood1 : JObj := {id := some idN1, label := some labelA}
def nGood2 : JObj := {id := some idN2, label := some labelB}
def nBad : JObj := {id := some idNBad}

/-- Directory with two valid node files and one missing its label. -/
def dirC7 : Dir :=
  [(fnG1, FileData.jobj nGood1), (fnBad, FileData.jobj nBad), (fnG2, FileData.jobj nGood2)]

def fpW : String := "files/nodes/node_w.json"

def pathA : String := "/data/A"
def pathB : String := "/data/B"
def srcOther : String := "other"
def nameA : String := "Source A"
def nameB : String := "Source B"
def emptyStr : String := ""
def dsA : DataSource := {name := nameA, path := pathA, description := emptyStr}
def dsB : DataSource := {name := nameB, path := pathB, description := emptyStr}

/-- Config with the default source at pathA (current) and a second source at pathB. -/
def cfgAB : SourceConfig :=
  {current := srcDefault, sources := [(srcDefault, dsA), (srcOther, dsB)]}

def envOk : FsEnv := {mkdirFail := [], notDirAt := []}

/-- Environment where the root of the second source is an existing plain file, so
creating its subdirectories fails and validation rejects it. -/
def envBfile : FsEnv := {mkdirFail := [pathB], notDirAt := []}

/-- World watching source A with its content cached, source B also on disk. -/
def wAB (env : FsEnv) : HRWorld :=
  {configRead := ConfigRead.ok cfgAB, env := env,
   disk := [(pathA, ([nodeW1], [])), (pathB, ([nodeW2], []))],
   filesDir := pathA,
   watchDirs := some (pathJoin pathA tblNodes, pathJoin pathA tblLinks),
   cacheNodes := [nodeRowOfLoad nodeW1], cacheLinks := [], broadcasts := []}

def noFaults : HRFaults :=
  {clear := false, populate := false, reloadW := false, recReloadW := false, recPopulate := false}

/-- Faults for the recovery example: the cache clear of the main path fails,
and the populate step of the recovery path also fails. -/
def faultsC4 : HRFaults :=
  {clear := true, populate := false, reloadW := false, recReloadW := false, recPopulate := true}

/-- The error of the first failing main-path step of the hot reload, used to
state which original error the recovery path re-throws. -/
def hotErrOf (f : HRFaults) : String :=
  if f.clear = true then errClear
  else if f.populate = true then errPopulate
  else errMkdirNew

def wsInit : WatchSys :=
  {nodesWatcher := none, linksWatcher := none, handles := [], nextH := 0}

def typNode : String := "node"
def typLink : String := "link"

/-! ## Helper lemmas: association lists -/

theorem lookupD_setD_self (d : Dir) (k : String) (c : FileData) :
    lookupD (setD d k c) k = some c := by
  induction d with
  | nil => simp [setD, lookupD]
  | cons hd tl ih =>
    obtain ⟨k1, v1⟩ := hd
    by_cases h : k1 = k <;> simp [setD, lookupD, h, ih]

theorem lookupD_setD_ne (d : Dir) (k n : String) (c : FileData) (h : k ≠ n) :
    lookupD (setD d k c) n = lookupD d n := by
  induction d with
  | nil => simp [setD, lookupD, h]
  | cons hd tl ih =>
    obtain ⟨k1, v1⟩ := hd
    by_cases h1 : k1 = k
    · subst h1
      simp [setD, lookupD, h]
    · simp [setD, lookupD, h1, ih]

theorem lookupD_eraseD_self (d : Dir) (k : String) :
    lookupD (eraseD d k) k = none := by
  induction d with
  | nil => simp [eraseD, lookupD]
  | cons hd tl ih =>
    obtain ⟨k1, v1⟩ := hd
    by_cases h : k1 = k <;> simp [eraseD, lookupD, h, ih]

theorem lookupD_eraseD_ne (d : Dir) (k n : String) (h : k ≠ n) :
    lookupD (eraseD d k) n = lookupD d n := by
  induction d with
  | nil => simp [eraseD, lookupD]
  | cons hd tl ih =>
    obtain ⟨k1, v1⟩ := hd
    by_cases h1 : k1 = k
    · subst h1
      simp [eraseD, lookupD, h, ih]
    · simp [eraseD, lookupD, h1, ih]

theorem mem_of_lookupD (d : Dir) (k : String) (c : FileData)
    (h : lookupD d k = some c) : (k, c) ∈ d := by
  induction d with
  | nil => simp [lookupD] at h
  | cons hd tl ih =>
    obtain ⟨k1, v1⟩ := hd
    by_cases h1 : k1 = k
    · subst h1
      simp [lookupD] at h
      simp [h]
    · simp [lookupD, h1] at h
      exact List.mem_cons_of_mem _ (ih h)

theorem lookupMark_setMark_self (m : Marks) (k : String) (t : Nat) :
    lookupMark (setMark m k t) k = some t := by
  induction m with
  | nil => simp [setMark, lookupMark]
  | cons hd tl ih =>
    obtain ⟨k1, v1⟩ := hd
    by_cases h : k1 = k <;> simp [setMark, lookupMark, h, ih]

/-! ## Helper lemmas: strings -/

theorem strLength_append (a b : String) : (a ++ b).length = a.length + b.length := by
  cases a with
  | mk da =>
    cases b with
    | mk db =>
      show (String.mk (da ++ db)).length = _
      simp [String.length]

theorem str_ne_append (a b : String) (h : b ≠ "") : a ≠ a ++ b := by
  intro he
  have hl := congrArg String.length he
  rw [strLength_append] at hl
  have hb : b.length = 0 := by omega
  apply h
  cases b with
  | mk db =>
    simp [String.length] at hb
    simp [hb]

theorem str_append_inj (a : String) {b c : String} (h : a ++ b = a ++ c) : b = c := by
  cases a with
  | mk da =>
    cases b with
    | mk db =>
      cases c with
      | mk dc =>
        have : da ++ db = da ++ dc := congrArg String.data h
        have := List.append_cancel_left this
        simp [this]

theorem strEndsWith_append (a b : String) : strEndsWith (a ++ b) b = true := by
  unfold strEndsWith
  rw [List.isSuffixOf_iff_suffix, String.data_append]
  exact List.suffix_append a.data b.data

theorem endsWith_json_not_tmp (s : String) (h : strEndsWith s jsonExt = true) :
    strEndsWith s tmpExt = false := by
  unfold strEndsWith at h ⊢
  cases hb : List.isSuffixOf tmpExt.data s.data with
  | false => rfl
  | true =>
    exfalso
    have h1 : jsonExt.data <:+ s.data := List.isSuffixOf_iff_suffix.mp h
    have h2 : tmpExt.data <:+ s.data := List.isSuffixOf_iff_suffix.mp hb
    rcases List.suffix_or_suffix_of_suffix h2 h1 with h3 | h3
    · have h4 : List.isSuffixOf tmpExt.data jsonExt.data = true :=
        List.isSuffixOf_iff_suffix.mpr h3
      exact absurd h4 (by decide)
    · have h4 : List.isSuffixOf jsonExt.data tmpExt.data = true :=
        List.isSuffixOf_iff_suffix.mpr h3
      exact absurd h4 (by decide)

theorem endsWith_json_not_backup (s : String) (h : strEndsWith s jsonExt = true) :
    strEndsWith s backupExt = false := by
  unfold strEndsWith at h ⊢
  cases hb : List.isSuffixOf backupExt.data s.data with
  | false => rfl
  | true =>
    exfalso
    have h1 : jsonExt.data <:+ s.data := List.isSuffixOf_iff_suffix.mp h
    have h2 : backupExt.data <:+ s.data := List.isSuffixOf_iff_suffix.mp hb
    rcases List.suffix_or_suffix_of_suffix h2 h1 with h3 | h3
    · have h4 : List.isSuffixOf backupExt.data jsonExt.data = true :=
        List.isSuffixOf_iff_suffix.mpr h3
      exact absurd h4 (by decide)
    · have h4 : List.isSuffixOf jsonExt.data backupExt.data = true :=
        List.isSuffixOf_iff_suffix.mpr h3
      exact absurd h4 (by decide)

theorem tmp_ne_target (p : String) : p ++ tmpExt ≠ p := by
  intro h
  exact str_ne_append p tmpExt (by decide) h.symm

theorem backup_ne_target (p : String) : p ++ backupExt ≠ p := by
  intro h
  exact str_ne_append p backupExt (by decide) h.symm

theorem tmp_ne_backup (p : String) : p ++ tmpExt ≠ p ++ backupExt := by
  intro h
  have := str_append_inj p h
  exact absurd (congrArg String.data this) (by decide)

/-! ## Helper lemmas: atomicWrite case analysis -/

theorem atomicWrite_ok (d : Dir) (p : String) (c : FileData) :
    (atomicWrite d none p c).1 = none ∧
    lookupD (atomicWrite d none p c).2 p = some c ∧
    lookupD (atomicWrite d none p c).2 (p ++ tmpExt) = none ∧
    lookupD (atomicWrite d none p c).2 (p ++ backupExt) = none := by
  have hbp : p ++ backupExt ≠ p := backup_ne_target p
  have htp : p ++ tmpExt ≠ p := tmp_ne_target p
  have htb : p ++ tmpExt ≠ p ++ backupExt := tmp_ne_backup p
  have hbt : p ++ backupExt ≠ p ++ tmpExt := fun h => htb h.symm
  have hpt : p ≠ p ++ tmpExt := fun h => htp h.symm
  have hpb : p ≠ p ++ backupExt := fun h => hbp h.symm
  cases hld : lookupD d p with
  | none =>
    simp [atomicWrite, hld, lookupD_setD_self, lookupD_eraseD_self,
      lookupD_setD_ne _ _ _ _ htp, lookupD_setD_ne _ _ _ _ hbt,
      lookupD_setD_ne _ _ _ _ hpt, lookupD_setD_ne _ _ _ _ hpb,
      lookupD_setD_ne _ _ _ _ htb,
      lookupD_eraseD_ne _ _ _ hbp, lookupD_eraseD_ne _ _ _ hbt,
      lookupD_eraseD_ne _ _ _ hpt, lookupD_eraseD_ne _ _ _ hpb,
      lookupD_eraseD_ne _ _ _ htp, lookupD_eraseD_ne _ _ _ htb]
  | some old =>
    simp [atomicWrite, hld, lookupD_setD_self, lookupD_eraseD_self,
      lookupD_setD_ne _ _ _ _ htp, lookupD_setD_ne _ _ _ _ hbt,
      lookupD_setD_ne _ _ _ _ hpt, lookupD_setD_ne _ _ _ _ hpb,
      lookupD_setD_ne _ _ _ _ htb,
      lookupD_eraseD_ne _ _ _ hbp, lookupD_eraseD_ne _ _ _ hbt,
      lookupD_eraseD_ne _ _ _ hpt, lookupD_eraseD_ne _ _ _ hpb,
      lookupD_eraseD_ne _ _ _ htp, lookupD_eraseD_ne _ _ _ htb]

theorem atomicWrite_backupFault (d : Dir) (p : String) (c : FileData) :
    (atomicWrite d (some AWStep.backupRename) p c).1 = none ∧
    lookupD (atomicWrite d (some AWStep.backupRename) p c).2 p = some c := by
  have hbp : p ++ backupExt ≠ p := backup_ne_target p
  have htp : p ++ tmpExt ≠ p := tmp_ne_target p
  simp [atomicWrite, lookupD_setD_self, lookupD_eraseD_self,
    lookupD_setD_ne _ _ _ _ htp, lookupD_eraseD_ne _ _ _ hbp]

theorem atomicWrite_unlinkFault (d : Dir) (p : String) (c : FileData) :
    (atomicWrite d (some AWStep.unlinkBackup) p c).1 = none ∧
    lookupD (atomicWrite d (some AWStep.unlinkBackup) p c).2 p = some c := by
  have hbp : p ++ backupExt ≠ p := backup_ne_target p
  have htp : p ++ tmpExt ≠ p := tmp_ne_target p
  have htb : p ++ tmpExt ≠ p ++ backupExt := tmp_ne_backup p
  have hbt : p ++ backupExt ≠ p ++ tmpExt := fun h => htb h.symm
  have hpt : p ≠ p ++ tmpExt := fun h => htp h.symm
  have hpb : p ≠ p ++ backupExt := fun h => hbp h.symm
  cases hld : lookupD d p with
  | none =>
    simp [atomicWrite, hld, lookupD_setD_self, lookupD_eraseD_self,
      lookupD_setD_ne _ _ _ _ htp, lookupD_setD_ne _ _ _ _ hbt,
      lookupD_setD_ne _ _ _ _ hpt, lookupD_setD_ne _ _ _ _ hpb,
      lookupD_setD_ne _ _ _ _ htb,
      lookupD_eraseD_ne _ _ _ hbp, lookupD_eraseD_ne _ _ _ hbt,
      lookupD_eraseD_ne _ _ _ hpt, lookupD_eraseD_ne _ _ _ hpb,
      lookupD_eraseD_ne _ _ _ htp, lookupD_eraseD_ne _ _ _ htb]
  | some old =>
    simp [atomicWrite, hld, lookupD_setD_self, lookupD_eraseD_self,
      lookupD_setD_ne _ _ _ _ htp, lookupD_setD_ne _ _ _ _ hbt,
      lookupD_setD_ne _ _ _ _ hpt, lookupD_setD_ne _ _ _ _ hpb,
      lookupD_setD_ne _ _ _ _ htb,
      lookupD_eraseD_ne _ _ _ hbp, lookupD_eraseD_ne _ _ _ hbt,
      lookupD_eraseD_ne _ _ _ hpt, lookupD_eraseD_ne _ _ _ hpb,
      lookupD_eraseD_ne _ _ _ htp, lookupD_eraseD_ne _ _ _ htb]

theorem atomicWrite_writeTmpFault (d : Dir) (p : String) (c : FileData)
    (hb : lookupD d (p ++ backupExt) = none) :
    atomicWrite d (some AWStep.writeTmp) p c = (some AWStep.writeTmp, d) := by
  simp [atomicWrite, awRollback, hb]

theorem atomicWrite_finalFault (d : Dir) (p : String) (c : FileData)
    (hb : lookupD d (p ++ backupExt) = none) :
    (atomicWrite d (some AWStep.finalRename) p c).1 = some AWStep.finalRename ∧
    lookupD (atomicWrite d (some AWStep.finalRename) p c).2 p = lookupD d p := by
  have hbp : p ++ backupExt ≠ p := backup_ne_target p
  have htp : p ++ tmpExt ≠ p := tmp_ne_target p
  have htb : p ++ tmpExt ≠ p ++ backupExt := tmp_ne_backup p
  have hbt : p ++ backupExt ≠ p ++ tmpExt := fun h => htb h.symm
  cases hld : lookupD d p with
  | none =>
    simp [atomicWrite, awRollback, hld, hb, lookupD_setD_self,
      lookupD_setD_ne _ _ _ _ htp, lookupD_setD_ne _ _ _ _ htb,
      lookupD_eraseD_ne _ _ _ hbp]
  | some old =>
    simp [atomicWrite, awRollback, hld, lookupD_setD_self,
      lookupD_setD_ne _ _ _ _ htp, lookupD_setD_ne _ _ _ _ htb,
      lookupD_eraseD_ne _ _ _ hbp]

/-! ## Helper lemmas: loadDir characterization and string associativity -/

theorem strAppend_assoc (a b c : String) : a ++ b ++ c = a ++ (b ++ c) := by
  cases a with
  | mk da =>
    cases b with
    | mk db =>
      cases c with
      | mk dc =>
        show String.mk (da ++ db ++ dc) = String.mk (da ++ (db ++ dc))
        rw [List.append_assoc]

theorem loadDir_eq (valid : JObj → Bool) (msg : String) (d : Dir) :
    loadDir valid msg d = (d.filterMap (keepObj valid), d.filterMap (errObj valid msg)) := by
  induction d with
  | nil => rfl
  | cons hd tl ih =>
    obtain ⟨name, data⟩ := hd
    cases hj : strEndsWith name jsonExt with
    | false => simp [loadDir, keepObj, errObj, jsonCandidate, hj, ih]
    | true =>
      have ht := endsWith_json_not_tmp name hj
      have hbk := endsWith_json_not_backup name hj
      cases data with
      | corrupt => simp [loadDir, keepObj, errObj, jsonCandidate, hj, ht, hbk, ih]
      | jobj o =>
        cases hv : valid o <;>
          simp [loadDir, keepObj, errObj, jsonCandidate, hj, ht, hbk, hv, ih]

/-! ## Helper lemmas: file deletes and the cascade fold -/

theorem deleteLinkFile_untouched (st : SyncState) (now : Nat) (id : Option String) :
    (deleteLinkFile st now false id).2.nodesDir = st.nodesDir ∧
    (deleteLinkFile st now false id).2.cacheNodes = st.cacheNodes ∧
    (deleteLinkFile st now false id).2.cacheLinks = st.cacheLinks := by
  cases h : lookupD st.linksDir (getLinkFilePath id) <;>
    simp [deleteLinkFile, primUnlink, h]

theorem deleteLinkFile_kill (st : SyncState) (now : Nat) (id : Option String) :
    lookupD (deleteLinkFile st now false id).2.linksDir (getLinkFilePath id) = none := by
  cases h : lookupD st.linksDir (getLinkFilePath id) <;>
    simp [deleteLinkFile, primUnlink, h, lookupD_eraseD_self]

theorem deleteLinkFile_preserve (st : SyncState) (now : Nat) (id : Option String)
    (q : String) (hq : getLinkFilePath id ≠ q) :
    lookupD (deleteLinkFile st now false id).2.linksDir q = lookupD st.linksDir q := by
  cases h : lookupD st.linksDir (getLinkFilePath id) <;>
    simp [deleteLinkFile, primUnlink, h, lookupD_eraseD_ne _ _ _ hq]

theorem deleteNodeFile_untouched (st : SyncState) (now : Nat) (id : Option String) :
    (deleteNodeFile st now false id).2.linksDir = st.linksDir ∧
    (deleteNodeFile st now false id).2.cacheNodes = st.cacheNodes ∧
    (deleteNodeFile st now false id).2.cacheLinks = st.cacheLinks := by
  cases h : lookupD st.nodesDir (getNodeFilePath id) <;>
    simp [deleteNodeFile, primUnlink, h]

theorem deleteNodeFile_kill (st : SyncState) (now : Nat) (id : Option String) :
    lookupD (deleteNodeFile st now false id).2.nodesDir (getNodeFilePath id) = none := by
  cases h : lookupD st.nodesDir (getNodeFilePath id) <;>
    simp [deleteNodeFile, primUnlink, h, lookupD_eraseD_self]

theorem foldDel_untouched (ls : List JObj) (now : Nat) (acc : SyncState) :
    (ls.foldl (fun a l => (deleteLinkFile a now false l.id).2) acc).nodesDir =
      acc.nodesDir ∧
    (ls.foldl (fun a l => (deleteLinkFile a now false l.id).2) acc).cacheNodes =
      acc.cacheNodes ∧
    (ls.foldl (fun a l => (deleteLinkFile a now false l.id).2) acc).cacheLinks =
      acc.cacheLinks := by
  induction ls generalizing acc with
  | nil => exact ⟨rfl, rfl, rfl⟩
  | cons hd tl ih =>
    rw [List.foldl_cons]
    obtain ⟨i1, i2, i3⟩ := ih (deleteLinkFile acc now false hd.id).2
    obtain ⟨u1, u2, u3⟩ := deleteLinkFile_untouched acc now hd.id
    exact ⟨i1.trans u1, i2.trans u2, i3.trans u3⟩

theorem foldDel_preserve (ls : List JObj) (now : Nat) (acc : SyncState) (q : String)
    (hq : ∀ l ∈ ls, getLinkFilePath l.id ≠ q) :
    lookupD (ls.foldl (fun a l => (deleteLinkFile a now false l.id).2) acc).linksDir q =
      lookupD acc.linksDir q := by
  induction ls generalizing acc with
  | nil => rfl
  | cons hd tl ih =>
    rw [List.foldl_cons]
    rw [ih _ (fun l hl => hq l (List.mem_cons_of_mem _ hl))]
    exact deleteLinkFile_preserve acc now hd.id q (hq hd (List.mem_cons_self _ _))

theorem foldDel_none (ls : List JObj) (now : Nat) (acc : SyncState) (q : String)
    (hq : lookupD acc.linksDir q = none) :
    lookupD (ls.foldl (fun a l => (deleteLinkFile a now false l.id).2) acc).linksDir q =
      none := by
  induction ls generalizing acc with
  | nil => exact hq
  | cons hd tl ih =>
    rw [List.foldl_cons]
    apply ih
    by_cases hqq : getLinkFilePath hd.id = q
    · rw [← hqq]
      exact deleteLinkFile_kill acc now hd.id
    · rw [deleteLinkFile_preserve acc now hd.id q hqq]
      exact hq

theorem foldDel_kill (ls : List JObj) (now : Nat) (acc : SyncState) (l : JObj)
    (hl : l ∈ ls) :
    lookupD (ls.foldl (fun a l => (deleteLinkFile a now false l.id).2) acc).linksDir
      (getLinkFilePath l.id) = none := by
  induction ls generalizing acc with
  | nil => cases hl
  | cons hd tl ih =>
    rw [List.foldl_cons]
    rcases List.mem_cons.mp hl with heq | hmem
    · subst heq
      exact foldDel_none tl now _ _ (deleteLinkFile_kill acc now l.id)
    · exact ih _ hmem

/-! ## Helper lemma: the recovery path of the hot reload -/

theorem recoverHR_spec (w : HRWorld) (f : HRFaults) (cs : DataSource)
    (hcur : lookupSrc (getConfig w.configRead).sources
      (getConfig w.configRead).current = some cs) :
    (recoverHR w f).configRead = w.configRead ∧
    (f.recReloadW = false → (recoverHR w f).watchDirs =
      some (pathJoin cs.path tblNodes, pathJoin cs.path tblLinks)) ∧
    (f.recReloadW = true → (recoverHR w f).watchDirs = none) ∧
    (f.recReloadW = false → f.recPopulate = false →
      (recoverHR w f).cacheNodes =
        populateRows (lookupDisk w.disk cs.path).1 nodeRowOfLoad w.cacheNodes ∧
      (recoverHR w f).cacheLinks =
        populateRows (lookupDisk w.disk cs.path).2 linkRowOfLoad w.cacheLinks) := by
  cases hr : f.recReloadW with
  | true =>
    simp [recoverHR, getCurrentSource, hcur, reloadWatchersW, hr, updatePathsW,
      stopWatchersW]
  | false =>
    cases hp : f.recPopulate with
    | true =>
      simp [recoverHR, getCurrentSource, hcur, reloadWatchersW, hr, hp, updatePathsW,
        stopWatchersW, startWatchersW, loadAllW, populateW]
    | false =>
      simp [recoverHR, getCurrentSource, hcur, reloadWatchersW, hr, hp, updatePathsW,
        stopWatchersW, startWatchersW, loadAllW, populateW]

/-! ## Claim theorems -/

/-- C3: atomicWrite writes the content to the temp path, renames any existing
target to the backup path, renames the temp file into place and then deletes
the backup; a failure that propagates after the backup rename (the final
rename) triggers the rollback and the original error is re-thrown, and a
failure before it (writing the temp file) also re-throws with the target
untouched, so a previously existing target file is never left missing or
half-written by a failed save.  The swallowed backup-rename and backup-unlink
failures do not fail the save and still leave the target holding the new
content. -/
theorem atomicWrite_safe (d : Dir) (p : String) (c : FileData) (fault : Option AWStep)
    (hb : lookupD d (p ++ backupExt) = none) :
    (fault = none →
      (atomicWrite d fault p c).1 = none ∧
      lookupD (atomicWrite d fault p c).2 p = some c ∧
      lookupD (atomicWrite d fault p c).2 (p ++ tmpExt) = none ∧
      lookupD (atomicWrite d fault p c).2 (p ++ backupExt) = none) ∧
    ((fault = some AWStep.backupRename ∨ fault = some AWStep.unlinkBackup) →
      (atomicWrite d fault p c).1 = none ∧
      lookupD (atomicWrite d fault p c).2 p = some c) ∧
    ((fault = some AWStep.writeTmp ∨ fault = some AWStep.finalRename) →
      (atomicWrite d fault p c).1 = fault ∧
      lookupD (atomicWrite d fault p c).2 p = lookupD d p) := by
  refine ⟨?_, ?_, ?_⟩
  · rintro rfl
    exact atomicWrite_ok d p c
  · rintro (rfl | rfl)
    · exact atomicWrite_backupFault d p c
    · exact atomicWrite_unlinkFault d p c
  · rintro (rfl | rfl)
    · rw [atomicWrite_writeTmpFault d p c hb]
      exact ⟨rfl, rfl⟩
    · exact atomicWrite_finalFault d p c hb

/-- Witness for C3 at a concrete directory, file and content. -/
theorem atomicWrite_safe_w :
    lookupD [] (fpW ++ backupExt) = none ∧
    (((none : Option AWStep) = none →
      (atomicWrite [] none fpW (FileData.jobj nodeW1)).1 = none ∧
      lookupD (atomicWrite [] none fpW (FileData.jobj nodeW1)).2 fpW =
        some (FileData.jobj nodeW1) ∧
      lookupD (atomicWrite [] none fpW (FileData.jobj nodeW1)).2 (fpW ++ tmpExt) = none ∧
      lookupD (atomicWrite [] none fpW (FileData.jobj nodeW1)).2 (fpW ++ backupExt) = none) ∧
    (((none : Option AWStep) = some AWStep.backupRename ∨
      (none : Option AWStep) = some AWStep.unlinkBackup) →
      (atomicWrite [] none fpW (FileData.jobj nodeW1)).1 = none ∧
      lookupD (atomicWrite [] none fpW (FileData.jobj nodeW1)).2 fpW =
        some (FileData.jobj nodeW1)) ∧
    (((none : Option AWStep) = some AWStep.writeTmp ∨
      (none : Option AWStep) = some AWStep.finalRename) →
      (atomicWrite [] none fpW (FileData.jobj nodeW1)).1 = none ∧
      lookupD (atomicWrite [] none fpW (FileData.jobj nodeW1)).2 fpW =
        lookupD [] fpW)) :=
  ⟨rfl, atomicWrite_safe [] fpW (FileData.jobj nodeW1) none rfl⟩

/-- C9: deleteNodeFile and deleteLinkFile succeed without raising when the
target file does not exist (ENOENT is swallowed) and raise only for other
I/O errors; deleting a nonexistent id never errors, and deleting the same id
twice leaves the same file-system state as deleting it once. -/
theorem deleteFile_idempotent (st : SyncState) (t1 t2 : Nat) (id : Option String) :
    (deleteNodeFile st t1 false id).1 = none ∧
    (deleteLinkFile st t1 false id).1 = none ∧
    (deleteNodeFile (deleteNodeFile st t1 false id).2 t2 false id).2.nodesDir =
      (deleteNodeFile st t1 false id).2.nodesDir ∧
    (deleteLinkFile (deleteLinkFile st t1 false id).2 t2 false id).2.linksDir =
      (deleteLinkFile st t1 false id).2.linksDir ∧
    (deleteNodeFile st t1 true id).1 = some IOErr.eperm ∧
    (deleteLinkFile st t1 true id).1 = some IOErr.eperm ∧
    (deleteNodeFile st t1 true id).2.nodesDir = st.nodesDir ∧
    (deleteLinkFile st t1 true id).2.linksDir = st.linksDir := by
  refine ⟨?_, ?_, ?_, ?_, ?_, ?_, ?_, ?_⟩
  · cases h : lookupD st.nodesDir (getNodeFilePath id) <;>
      simp [deleteNodeFile, primUnlink, h]
  · cases h : lookupD st.linksDir (getLinkFilePath id) <;>
      simp [deleteLinkFile, primUnlink, h]
  · cases h : lookupD st.nodesDir (getNodeFilePath id) <;>
      simp [deleteNodeFile, primUnlink, h, lookupD_eraseD_self]
  · cases h : lookupD st.linksDir (getLinkFilePath id) <;>
      simp [deleteLinkFile, primUnlink, h, lookupD_eraseD_self]
  · simp [deleteNodeFile, primUnlink]
  · simp [deleteLinkFile, primUnlink]
  · simp [deleteNodeFile, primUnlink]
  · simp [deleteLinkFile, primUnlink]

/-- C7: loadAllFiles considers exactly the .json entries of the nodes and
links directories (temp and backup artifacts are skipped), loads every file
that parses and has the required fields (a node needs id and label, a link
needs id, source_id and target_id), records one per-file error naming each
failing file and continues past it; in particular a directory with two valid
node files and one missing its label yields exactly 2 loaded nodes and 1
error naming the bad file, and no single corrupt file aborts the bulk load. -/
theorem loadAllFiles_resilient (nodesDir linksDir : Dir) :
    (loadAllFiles nodesDir linksDir).nodes = nodesDir.filterMap (keepObj validNode) ∧
    (loadAllFiles nodesDir linksDir).links = linksDir.filterMap (keepObj validLink) ∧
    (loadAllFiles nodesDir linksDir).errors =
      nodesDir.filterMap (errObj validNode msgMissingNode) ++
      linksDir.filterMap (errObj validLink msgMissingLink) ∧
    (loadAllFiles dirC7 []).nodes = [nGood1, nGood2] ∧
    (loadAllFiles dirC7 []).errors =
      [{file := fnBad, message := msgMissingNode, action := actSkipped}] ∧
    (loadAllFiles dirC7 []).nodes.length = 2 ∧
    (loadAllFiles dirC7 []).errors.length = 1 := by
  refine ⟨?_, ?_, ?_, ?_, ?_, ?_, ?_⟩
  · simp [loadAllFiles, loadDir_eq]
  · simp [loadAllFiles, loadDir_eq]
  · simp [loadAllFiles, loadDir_eq]
  · decide
  · decide
  · decide
  · decide

/-- C8: for a valid node and link (string ids, required fields present and
non-empty), saveNode or saveLink followed by loadAllFiles over the same
directories yields among the loaded entities one deep-equal to the saved
entity: the file holds the complete serialization and loading does not alter
any field. -/
theorem save_load_round_trip (st : SyncState) (t : Nat) (node link : JObj)
    (ni nl li lsv ltv : String)
    (hni : node.id = some ni) (hni0 : ni ≠ "")
    (hnl : node.label = some nl) (hnl0 : nl ≠ "")
    (hli : link.id = some li) (hli0 : li ≠ "")
    (hls : link.source_id = some lsv) (hls0 : lsv ≠ "")
    (hlt : link.target_id = some ltv) (hlt0 : ltv ≠ "") :
    node ∈ (loadAllFiles (saveNode st t none node).2.nodesDir
      (saveNode st t none node).2.linksDir).nodes ∧
    link ∈ (loadAllFiles (saveLink st t none link).2.nodesDir
      (saveLink st t none link).2.linksDir).links := by
  constructor
  · have hnorm : {node with id := some (idToString node.id)} = node := by
      cases node
      simp only at hni
      simp [hni, idToString]
    have hlook : lookupD (saveNode st t none node).2.nodesDir
        (getNodeFilePath node.id) = some (FileData.jobj node) := by
      have h2 := (atomicWrite_ok st.nodesDir (getNodeFilePath node.id)
        (FileData.jobj {node with id := some (idToString node.id)})).2.1
      rw [hnorm] at h2
      simp only [saveNode]
      rw [hnorm]
      exact h2
    have hjson : strEndsWith (getNodeFilePath node.id) jsonExt = true := by
      have hsplit : getNodeFilePath node.id =
          (NODES_DIR ++ slashStr ++ (nodeFileStart ++ getIdSuffix node.id)) ++ jsonExt := by
        simp [getNodeFilePath, pathJoin, getNodeFilename, strAppend_assoc]
      rw [hsplit]
      exact strEndsWith_append _ _
    have hc : jsonCandidate (getNodeFilePath node.id) = true := by
      simp [jsonCandidate, hjson, endsWith_json_not_tmp _ hjson,
        endsWith_json_not_backup _ hjson]
    have hvalid : validNode node = true := by
      simp [validNode, truthy, hni, hnl, hni0, hnl0]
    have hkeep : keepObj validNode (getNodeFilePath node.id, FileData.jobj node) =
        some node := by
      simp [keepObj, hc, hvalid]
    have hmem := mem_of_lookupD _ _ _ hlook
    simp only [loadAllFiles, loadDir_eq]
    exact List.mem_filterMap.mpr ⟨_, hmem, hkeep⟩
  · have hnorm :
        ({link with
            id := some (idToString link.id),
            source_id := some (idToString link.source_id),
            target_id := some (idToString link.target_id)} : JObj) = link := by
      cases link
      simp only at hli hls hlt
      simp [hli, hls, hlt, idToString]
    have hlook : lookupD (saveLink st t none link).2.linksDir
        (getLinkFilePath link.id) = some (FileData.jobj link) := by
      have h2 := (atomicWrite_ok st.linksDir (getLinkFilePath link.id)
        (FileData.jobj ({link with
          id := some (idToString link.id),
          source_id := some (idToString link.source_id),
          target_id := some (idToString link.target_id)} : JObj))).2.1
      rw [hnorm] at h2
      simp only [saveLink]
      rw [hnorm]
      exact h2
    have hjson : strEndsWith (getLinkFilePath link.id) jsonExt = true := by
      have hsplit : getLinkFilePath link.id =
          (LINKS_DIR ++ slashStr ++ (linkFileStart ++ getIdSuffix link.id)) ++ jsonExt := by
        simp [getLinkFilePath, pathJoin, getLinkFilename, strAppend_assoc]
      rw [hsplit]
      exact strEndsWith_append _ _
    have hc : jsonCandidate (getLinkFilePath link.id) = true := by
      simp [jsonCandidate, hjson, endsWith_json_not_tmp _ hjson,
        endsWith_json_not_backup _ hjson]
    have hvalid : validLink link = true := by
      simp [validLink, truthy, hli, hls, hlt, hli0, hls0, hlt0]
    have hkeep : keepObj validLink (getLinkFilePath link.id, FileData.jobj link) =
        some link := by
      simp [keepObj, hc, hvalid]
    have hmem := mem_of_lookupD _ _ _ hlook
    simp only [loadAllFiles, loadDir_eq]
    exact List.mem_filterMap.mpr ⟨_, hmem, hkeep⟩

/-- Witness for C8 at a concrete node and link. -/
theorem save_load_round_trip_w :
    nodeW1.id = some idN1 ∧ idN1 ≠ "" ∧
    nodeW1.label = some labelA ∧ labelA ≠ "" ∧
    linkW1.id = some idL1 ∧ idL1 ≠ "" ∧
    linkW1.source_id = some idN1 ∧
    linkW1.target_id = some idN2 ∧ idN2 ≠ "" ∧
    (nodeW1 ∈ (loadAllFiles (saveNode stEmpty 0 none nodeW1).2.nodesDir
      (saveNode stEmpty 0 none nodeW1).2.linksDir).nodes ∧
    linkW1 ∈ (loadAllFiles (saveLink stEmpty 0 none linkW1).2.nodesDir
      (saveLink stEmpty 0 none linkW1).2.linksDir).links) :=
  ⟨by decide, by decide, by decide, by decide, by decide, by decide, by decide,
   by decide, by decide,
   save_load_round_trip stEmpty 0 nodeW1 linkW1 idN1 labelA idL1 idN1 idN2
     (by decide) (by decide) (by decide) (by decide) (by decide) (by decide)
     (by decide) (by decide) (by decide) (by decide)⟩

/-- C2: performing saveNode or saveLink and then delivering the corresponding
watcher add or change event for the written file path within the one-second
grace window produces no second upsert and no notification for that write:
the save records the path in the write tracker before issuing the write, and
the handlers return unchanged because the mark for the path is younger than
one second. -/
theorem save_then_event_skipped (st : SyncState) (t tev : Nat) (nowStr : String)
    (node link : JObj) (h : tev - t < 1000) :
    handleFileAdded (saveNode st t none node).2 tev nowStr typNode
      (getNodeFilePath node.id) = (saveNode st t none node).2 ∧
    handleFileChanged (saveNode st t none node).2 tev nowStr typNode
      (getNodeFilePath node.id) = (saveNode st t none node).2 ∧
    handleFileAdded (saveLink st t none link).2 tev nowStr typLink
      (getLinkFilePath link.id) = (saveLink st t none link).2 ∧
    handleFileChanged (saveLink st t none link).2 tev nowStr typLink
      (getLinkFilePath link.id) = (saveLink st t none link).2 := by
  have hmn : (saveNode st t none node).2.marks =
      setMark st.marks (getNodeFilePath node.id) t := by
    simp [saveNode]
  have hion : isOurWrite (saveNode st t none node).2.marks tev
      (getNodeFilePath node.id) = true := by
    rw [hmn]
    simp [isOurWrite, lookupMark_setMark_self, h]
  have hml : (saveLink st t none link).2.marks =
      setMark st.marks (getLinkFilePath link.id) t := by
    simp [saveLink]
  have hiol : isOurWrite (saveLink st t none link).2.marks tev
      (getLinkFilePath link.id) = true := by
    rw [hml]
    simp [isOurWrite, lookupMark_setMark_self, h]
  refine ⟨?_, ?_, ?_, ?_⟩
  · cases hj : strEndsWith (basename (getNodeFilePath node.id)) jsonExt <;>
      simp [handleFileAdded, hj, hion]
  · cases hj : strEndsWith (basename (getNodeFilePath node.id)) jsonExt <;>
      simp [handleFileChanged, hj, hion]
  · cases hj : strEndsWith (basename (getLinkFilePath link.id)) jsonExt <;>
      simp [handleFileAdded, hj, hiol]
  · cases hj : strEndsWith (basename (getLinkFilePath link.id)) jsonExt <;>
      simp [handleFileChanged, hj, hiol]

/-- Witness for C2: a save at time 0 followed by the watcher events at
time 500, inside the grace window. -/
theorem save_then_event_skipped_w :
    (500 : Nat) - 0 < 1000 ∧
    (handleFileAdded (saveNode stEmpty 0 none nodeW1).2 500 tsNow typNode
      (getNodeFilePath nodeW1.id) = (saveNode stEmpty 0 none nodeW1).2 ∧
    handleFileChanged (saveNode stEmpty 0 none nodeW1).2 500 tsNow typNode
      (getNodeFilePath nodeW1.id) = (saveNode stEmpty 0 none nodeW1).2 ∧
    handleFileAdded (saveLink stEmpty 0 none linkW1).2 500 tsNow typLink
      (getLinkFilePath linkW1.id) = (saveLink stEmpty 0 none linkW1).2 ∧
    handleFileChanged (saveLink stEmpty 0 none linkW1).2 500 tsNow typLink
      (getLinkFilePath linkW1.id) = (saveLink stEmpty 0 none linkW1).2) :=
  ⟨by decide, save_then_event_skipped stEmpty 0 500 tsNow nodeW1 linkW1 (by decide)⟩

/-- C1: deleteNode(n) first queries the links whose source_id or target_id
equals n, deletes exactly those links and then the node from the cache,
deletes the file of the node and the file of each connected link, leaves every link not
referencing n untouched in both cache and files, and returns deletedLinks
equal to the number of links that referenced n.  The file part assumes the
file names of the connected links do not collide with the file name of an
unrelated link (ids of the generated shape table:suffix with distinct suffixes). -/
theorem deleteNode_cascade (st : SyncState) (now : Nat) (n : String)
    (hn : recordTable n = tblNodes)
    (hsep : ∀ l ∈ st.cacheLinks, isConnected n l = true →
      ∀ m ∈ st.cacheLinks, isConnected n m = false →
        getLinkFilePath l.id ≠ getLinkFilePath m.id) :
    (deleteNode st now n).1.deletedLinks =
      (st.cacheLinks.filter (isConnected n)).length ∧
    (deleteNode st now n).2.cacheLinks =
      st.cacheLinks.filter (fun l => !(isConnected n l)) ∧
    (deleteNode st now n).2.cacheNodes =
      st.cacheNodes.filter (fun m => !(m.id = some n)) ∧
    lookupD (deleteNode st now n).2.nodesDir (getNodeFilePath (some n)) = none ∧
    (∀ l ∈ st.cacheLinks, isConnected n l = true →
      lookupD (deleteNode st now n).2.linksDir (getLinkFilePath l.id) = none) ∧
    (∀ m ∈ st.cacheLinks, isConnected n m = false →
      lookupD (deleteNode st now n).2.linksDir (getLinkFilePath m.id) =
        lookupD st.linksDir (getLinkFilePath m.id)) := by
  refine ⟨?_, ?_, ?_, ?_, ?_, ?_⟩
  · simp [deleteNode]
  · simp only [deleteNode]
    rw [(foldDel_untouched _ now _).2.2, (deleteNodeFile_untouched _ now _).2.2]
    simp [deleteRecord, hn]
  · simp only [deleteNode]
    rw [(foldDel_untouched _ now _).2.1, (deleteNodeFile_untouched _ now _).2.1]
    simp [deleteRecord, hn]
  · simp only [deleteNode]
    rw [(foldDel_untouched _ now _).1]
    exact deleteNodeFile_kill _ now _
  · intro l hl hconn
    simp only [deleteNode]
    exact foldDel_kill _ now _ l (List.mem_filter.mpr ⟨hl, hconn⟩)
  · intro m hm hmc
    have hq : ∀ l ∈ st.cacheLinks.filter (isConnected n),
        getLinkFilePath l.id ≠ getLinkFilePath m.id := by
      intro l hl
      have hlm := List.mem_filter.mp hl
      exact hsep l hlm.1 hlm.2 m hm hmc
    simp only [deleteNode]
    rw [foldDel_preserve _ now _ _ hq, (deleteNodeFile_untouched _ now _).1]
    simp [deleteRecord, hn]

/-- Witness for C1: node n1 with links l1 (source n1), l2 (target n1) and the
unrelated l3: l1 and l2 go, l3 stays, deletedLinks is 2. -/
theorem deleteNode_cascade_w :
    recordTable idN1 = tblNodes ∧
    (∀ l ∈ stC1.cacheLinks, isConnected idN1 l = true →
      ∀ m ∈ stC1.cacheLinks, isConnected idN1 m = false →
        getLinkFilePath l.id ≠ getLinkFilePath m.id) ∧
    (stC1.cacheLinks.filter (isConnected idN1)).length = 2 ∧
    stC1.cacheLinks.filter (fun l => !(isConnected idN1 l)) = [linkW3] ∧
    ((deleteNode stC1 0 idN1).1.deletedLinks =
      (stC1.cacheLinks.filter (isConnected idN1)).length ∧
    (deleteNode stC1 0 idN1).2.cacheLinks =
      stC1.cacheLinks.filter (fun l => !(isConnected idN1 l)) ∧
    (deleteNode stC1 0 idN1).2.cacheNodes =
      stC1.cacheNodes.filter (fun m => !(m.id = some idN1)) ∧
    lookupD (deleteNode stC1 0 idN1).2.nodesDir (getNodeFilePath (some idN1)) = none ∧
    (∀ l ∈ stC1.cacheLinks, isConnected idN1 l = true →
      lookupD (deleteNode stC1 0 idN1).2.linksDir (getLinkFilePath l.id) = none) ∧
    (∀ m ∈ stC1.cacheLinks, isConnected idN1 m = false →
      lookupD (deleteNode stC1 0 idN1).2.linksDir (getLinkFilePath m.id) =
        lookupD stC1.linksDir (getLinkFilePath m.id))) :=
  ⟨by decide, by decide, by decide, by decide,
   deleteNode_cascade stC1 0 idN1 (by decide) (by decide)⟩

/-- C10: when reading or parsing the data-sources configuration file fails
for any reason, getConfig returns the built-in default configuration with
current equal to default and a single default source at path ./files, and
every operation that reads the config (getAllSources, getCurrentSource,
addSource, removeSource, switchSource) operates on this default instead of
failing. -/
theorem getConfig_fallback (r : ConfigRead)
    (h : r = ConfigRead.readError ∨ r = ConfigRead.corruptJson) :
    getConfig r = defaultConfig ∧
    defaultConfig.current = srcDefault ∧
    lookupSrc defaultConfig.sources srcDefault =
      some {name := defaultName, path := defaultPath, description := defaultDescr} ∧
    defaultConfig.sources.length = 1 ∧
    getAllSources r = defaultConfig.sources ∧
    getCurrentSource r = Except.ok (srcDefault,
      {name := defaultName, path := defaultPath, description := defaultDescr}) ∧
    (∀ env id nm p descr, addSource r env id nm p descr =
      addSource (ConfigRead.ok defaultConfig) env id nm p descr) ∧
    (∀ id, removeSource r id = removeSource (ConfigRead.ok defaultConfig) id) ∧
    (∀ env id, switchSourceCfg r env id =
      switchSourceCfg (ConfigRead.ok defaultConfig) env id) := by
  rcases h with rfl | rfl <;>
    exact ⟨rfl, rfl, by decide, rfl, rfl, rfl,
      fun env id nm p descr => rfl, fun id => rfl, fun env id => rfl⟩

/-- Witness for C10 at the failed-read input. -/
theorem getConfig_fallback_w :
    (ConfigRead.readError = ConfigRead.readError ∨
      ConfigRead.readError = ConfigRead.corruptJson) ∧
    (getConfig ConfigRead.readError = defaultConfig ∧
    defaultConfig.current = srcDefault ∧
    lookupSrc defaultConfig.sources srcDefault =
      some {name := defaultName, path := defaultPath, description := defaultDescr} ∧
    defaultConfig.sources.length = 1 ∧
    getAllSources ConfigRead.readError = defaultConfig.sources ∧
    getCurrentSource ConfigRead.readError = Except.ok (srcDefault,
      {name := defaultName, path := defaultPath, description := defaultDescr}) ∧
    (∀ env id nm p descr, addSource ConfigRead.readError env id nm p descr =
      addSource (ConfigRead.ok defaultConfig) env id nm p descr) ∧
    (∀ id, removeSource ConfigRead.readError id =
      removeSource (ConfigRead.ok defaultConfig) id) ∧
    (∀ env id, switchSourceCfg ConfigRead.readError env id =
      switchSourceCfg (ConfigRead.ok defaultConfig) env id)) :=
  ⟨Or.inl rfl, getConfig_fallback ConfigRead.readError (Or.inl rfl)⟩

/-- C5: when validation of the path of the target source fails during a source
switch (the path is a file, or its subdirectories cannot be created),
switchSource throws before saveConfig, so the persisted config is unchanged
and, after the failed hot swap, the watchers observe the directories of the original
source. -/
theorem switch_validation_atomic (w : HRWorld) (f : HRFaults) (newId : String)
    (src cs : DataSource)
    (hnew : lookupSrc (getConfig w.configRead).sources newId = some src)
    (hbad : src.path ∈ w.env.mkdirFail ∨ src.path ∈ w.env.notDirAt)
    (hcur : lookupSrc (getConfig w.configRead).sources
      (getConfig w.configRead).current = some cs)
    (hw : w.watchDirs = some (pathJoin cs.path tblNodes, pathJoin cs.path tblLinks))
    (hrec : f.recReloadW = false) :
    (∃ e, (performHotReload w f newId).1 = Except.error e) ∧
    (performHotReload w f newId).2.configRead = w.configRead ∧
    (performHotReload w f newId).2.watchDirs = w.watchDirs := by
  have hval : ∃ e, validateSourcePath w.env src.path = Except.error e := by
    unfold validateSourcePath
    by_cases h1 : src.path ∈ w.env.mkdirFail
    · exact ⟨msgMkdir, by simp [h1]⟩
    · rcases hbad with h2 | h2
      · exact absurd h2 h1
      · exact ⟨msgNotDir, by simp [h1, h2]⟩
  obtain ⟨e, he⟩ := hval
  have hsw : switchSourceW w newId = Except.error (msgCannotSwitch ++ e) := by
    simp [switchSourceW, switchSourceCfg, hnew, he]
  have hrecov : recoverHR w f =
      (populateW (startWatchersW (stopWatchersW (updatePathsW w cs.path)))
        (loadAllW (startWatchersW (stopWatchersW (updatePathsW w cs.path)))).1
        (loadAllW (startWatchersW (stopWatchersW (updatePathsW w cs.path)))).2
        f.recPopulate).2 := by
    simp [recoverHR, getCurrentSource, hcur, reloadWatchersW, hrec]
  refine ⟨?_, ?_, ?_⟩
  · refine ⟨msgCannotSwitch ++ e, ?_⟩
    simp [performHotReload, hsw]
  · simp only [performHotReload, hsw]
    rw [hrecov]
    cases hp : f.recPopulate <;>
      simp [populateW, startWatchersW, stopWatchersW, updatePathsW, hp]
  · simp only [performHotReload, hsw]
    rw [hrecov]
    cases hp : f.recPopulate <;>
      simp [populateW, startWatchersW, stopWatchersW, updatePathsW, hp, hw]

/-- Witness for C5: switching to a source whose root is a plain file. -/
theorem switch_validation_atomic_w :
    lookupSrc (getConfig (wAB envBfile).configRead).sources srcOther = some dsB ∧
    (dsB.path ∈ (wAB envBfile).env.mkdirFail ∨
      dsB.path ∈ (wAB envBfile).env.notDirAt) ∧
    lookupSrc (getConfig (wAB envBfile).configRead).sources
      (getConfig (wAB envBfile).configRead).current = some dsA ∧
    (wAB envBfile).watchDirs =
      some (pathJoin dsA.path tblNodes, pathJoin dsA.path tblLinks) ∧
    noFaults.recReloadW = false ∧
    ((∃ e, (performHotReload (wAB envBfile) noFaults srcOther).1 = Except.error e) ∧
    (performHotReload (wAB envBfile) noFaults srcOther).2.configRead =
      (wAB envBfile).configRead ∧
    (performHotReload (wAB envBfile) noFaults srcOther).2.watchDirs =
      (wAB envBfile).watchDirs) :=
  ⟨by decide, by decide, by decide, by decide, by decide,
   switch_validation_atomic (wAB envBfile) noFaults srcOther dsB dsA
     (by decide) (by decide) (by decide) (by decide) (by decide)⟩

/-- C4 counterexample: in a concrete world watching source A, switching to
source B where the cache clear fails after the config save and the populate
step of recovery also fails, the system ends watching the directories of the NEW
source B (not the original A directories, and not un-watching) with the
cache never repopulated: recovery does not reload the original source, and a
failed recovery does not leave the system un-watching. -/
theorem hot_reload_recovery_cex :
    (performHotReload (wAB envOk) faultsC4 srcOther).1 = Except.error errClear ∧
    (performHotReload (wAB envOk) faultsC4 srcOther).2.watchDirs =
      some (pathJoin pathB tblNodes, pathJoin pathB tblLinks) ∧
    (performHotReload (wAB envOk) faultsC4 srcOther).2.watchDirs ≠
      some (pathJoin pathA tblNodes, pathJoin pathA tblLinks) ∧
    (performHotReload (wAB envOk) faultsC4 srcOther).2.watchDirs ≠ none ∧
    (performHotReload (wAB envOk) faultsC4 srcOther).2.cacheNodes =
      [nodeRowOfLoad nodeW1] ∧
    (performHotReload (wAB envOk) faultsC4 srcOther).2.filesDir = pathB := by
  refine ⟨rfl, by decide, by decide, by decide, by decide, by decide⟩

/-- C4 amended: when a post-save hot-swap step fails (clearing the cache,
populating it, or restarting watchers), the recovery path re-enters the
active state of the source the persisted config then names as current, which
is the NEW source because current was saved before those steps: it restarts
watchers on the path of the new source and, when recovery does not itself fail,
repopulates the cache by upserting the files of the new source; the original
error is re-thrown in every case.  When recovery fails while restarting
watchers the system is left un-watching, but a recovery failure in the
populate step leaves it watching the new path. -/
theorem hot_reload_recovery_amended (w : HRWorld) (f : HRFaults) (newId : String)
    (src : DataSource)
    (hnew : lookupSrc (getConfig w.configRead).sources newId = some src)
    (hv1 : src.path ∉ w.env.mkdirFail) (hv2 : src.path ∉ w.env.notDirAt)
    (hfault : f.clear = true ∨ (f.clear = false ∧ f.populate = true) ∨
      (f.clear = false ∧ f.populate = false ∧ f.reloadW = true)) :
    (performHotReload w f newId).1 = Except.error (hotErrOf f) ∧
    (performHotReload w f newId).2.configRead =
      ConfigRead.ok {getConfig w.configRead with current := newId} ∧
    (f.recReloadW = false →
      (performHotReload w f newId).2.watchDirs =
        some (pathJoin src.path tblNodes, pathJoin src.path tblLinks)) ∧
    (f.recReloadW = true →
      (performHotReload w f newId).2.watchDirs = none) ∧
    (f.clear = true → f.recReloadW = false → f.recPopulate = false →
      (performHotReload w f newId).2.cacheNodes =
        populateRows (lookupDisk w.disk src.path).1 nodeRowOfLoad w.cacheNodes ∧
      (performHotReload w f newId).2.cacheLinks =
        populateRows (lookupDisk w.disk src.path).2 linkRowOfLoad w.cacheLinks) := by
  have hval : validateSourcePath w.env src.path = Except.ok
      {absolutePath := src.path, nodesDir := pathJoin src.path tblNodes,
       linksDir := pathJoin src.path tblLinks} := by
    simp [validateSourcePath, hv1, hv2]
  have hsw : switchSourceW w newId = Except.ok
      ({w with configRead := ConfigRead.ok {getConfig w.configRead with current := newId}},
       src,
       {absolutePath := src.path, nodesDir := pathJoin src.path tblNodes,
        linksDir := pathJoin src.path tblLinks}) := by
    simp [switchSourceW, switchSourceCfg, hnew, hval]
  unfold getConfig at hnew
  rcases hfault with hc | ⟨hc, hp⟩ | ⟨hc, hp, hr⟩ <;>
    cases hrr : f.recReloadW <;> cases hrp : f.recPopulate <;>
      refine ⟨?_, ?_, ?_, ?_, ?_⟩ <;>
        simp [performHotReload, hsw, clearAllW, populateW, reloadWatchersW,
          updatePathsW, stopWatchersW, startWatchersW, loadAllW, recoverHR,
          getCurrentSource, getConfig, hotErrOf, hnew, hc, hrr, hrp, *]

/-- Witness for the amended C4 at the concrete world of the counterexample. -/
theorem hot_reload_recovery_amended_w :
    lookupSrc (getConfig (wAB envOk).configRead).sources srcOther = some dsB ∧
    dsB.path ∉ (wAB envOk).env.mkdirFail ∧
    dsB.path ∉ (wAB envOk).env.notDirAt ∧
    (faultsC4.clear = true ∨ (faultsC4.clear = false ∧ faultsC4.populate = true) ∨
      (faultsC4.clear = false ∧ faultsC4.populate = false ∧
        faultsC4.reloadW = true)) ∧
    ((performHotReload (wAB envOk) faultsC4 srcOther).1 =
      Except.error (hotErrOf faultsC4) ∧
    (performHotReload (wAB envOk) faultsC4 srcOther).2.configRead =
      ConfigRead.ok {getConfig (wAB envOk).configRead with current := srcOther} ∧
    (faultsC4.recReloadW = false →
      (performHotReload (wAB envOk) faultsC4 srcOther).2.watchDirs =
        some (pathJoin dsB.path tblNodes, pathJoin dsB.path tblLinks)) ∧
    (faultsC4.recReloadW = true →
      (performHotReload (wAB envOk) faultsC4 srcOther).2.watchDirs = none) ∧
    (faultsC4.clear = true → faultsC4.recReloadW = false →
      faultsC4.recPopulate = false →
      (performHotReload (wAB envOk) faultsC4 srcOther).2.cacheNodes =
        populateRows (lookupDisk (wAB envOk).disk dsB.path).1 nodeRowOfLoad
          (wAB envOk).cacheNodes ∧
      (performHotReload (wAB envOk) faultsC4 srcOther).2.cacheLinks =
        populateRows (lookupDisk (wAB envOk).disk dsB.path).2 linkRowOfLoad
          (wAB envOk).cacheLinks)) :=
  ⟨by decide, by decide, by decide, Or.inl (by decide),
   hot_reload_recovery_amended (wAB envOk) faultsC4 srcOther dsB
     (by decide) (by decide) (by decide) (Or.inl (by decide))⟩

/-- C6: at the failing input, stopWatchers invoked while both chokidar
watchers are active.  The reference-level idempotence holds (a second call,
and a call with no active watchers, are no-ops), and in the hot-swap sequence
stopWatchers is invoked before clearAllData; but stopWatchers calls the
asynchronous close() without awaiting the returned promise, so at the moment
it returns both OS handles are still only closing, not released: releasing
happens in later event-loop steps (osCompleteClose), after the function and
its caller have moved on. -/
theorem stopWatchers_returns_before_release :
    (stopWatchersS (startWatchersS wsInit)).nodesWatcher = none ∧
    (stopWatchersS (startWatchersS wsInit)).linksWatcher = none ∧
    lookupHandle (stopWatchersS (startWatchersS wsInit)).handles 0 =
      some HandleState.closing ∧
    lookupHandle (stopWatchersS (startWatchersS wsInit)).handles 1 =
      some HandleState.closing ∧
    some HandleState.closing ≠ some HandleState.released ∧
    stopWatchersS (stopWatchersS (startWatchersS wsInit)) =
      stopWatchersS (startWatchersS wsInit) ∧
    stopWatchersS wsInit = wsInit ∧
    lookupHandle (osCompleteClose (osCompleteClose
      (stopWatchersS (startWatchersS wsInit)).handles 0) 1) 0 =
      some HandleState.released ∧
    lookupHandle (osCompleteClose (osCompleteClose
      (stopWatchersS (startWatchersS wsInit)).handles 0) 1) 1 =
      some HandleState.released := by
  decide

end GraphTool
